import Mathlib

/-!
Verification development for the web stock-ticker server
(src/web_ticker/server.js and its embedded client code).

The JavaScript source is shallowly embedded: JS numbers that only ever
hold timestamps or millisecond intervals are modelled as `Int`, prices
and other fractional values as `ℚ`, fallible operations as
`Except String`, and the single-threaded event-loop interleaving of
`refreshQuotes` callers as explicit scenario functions with one
suspension point (the awaited fetch burst).
-/

namespace StockTicker

/-- A quote record as produced by `fetchStockQuote` (server.js lines 77-84).
Fractional JS numbers are modelled as rationals; `null` fields as `none`. -/
structure Quote where
  symbol : String
  price : Option ℚ
  currency : String
  change : Option ℚ
  changePercent : Option ℚ
  timestamp : Option Int
  deriving DecidableEq

/-- The shared mutable `state` record of `createServer`
(server.js lines 152-156). `updatedAt = 0` means never populated. -/
structure CacheState where
  quotes : List Quote
  updatedAt : Int
  lastError : Option String
  deriving DecidableEq

/-- `Promise.all(symbols.map(fetchStockQuote))` (server.js line 183):
succeeds with one quote per symbol, in symbol-list order, or rejects with
the error of a failing symbol (`Promise.all` settles with the error of one
failing fetch; here the first in list order). -/
def fetchAll (fetch : String → Except String Quote) :
    List String → Except String (List Quote)
  | [] => .ok []
  | s :: rest =>
    match fetch s, fetchAll fetch rest with
    | .error e, _ => .error e
    | .ok _, .error e => .error e
    | .ok q, .ok qs => .ok (q :: qs)

/-- The freshness early-return guard of `refreshQuotes`
(server.js line 172): `!force && state.quotes.length && now - state.updatedAt < refreshMs`. -/
def freshHit (force : Bool) (refreshMs : Int) (now : Int) (st : CacheState) : Bool :=
  !force && !st.quotes.isEmpty && decide (now - st.updatedAt < refreshMs)

/-- The body of the in-flight refresh operation (server.js lines 181-193):
on success of the whole fetch burst it replaces `quotes`, sets `updatedAt`
to the completion time and clears `lastError`; on failure it records the
error in `lastError`, leaves `quotes`/`updatedAt` untouched and rethrows.
Returns the new cache state and the rethrown error (`none` = resolved). -/
def refreshBody (fetch : String → Except String Quote) (symbols : List String)
    (tDone : Int) (st : CacheState) : CacheState × Option String :=
  match fetchAll fetch symbols with
  | .ok qs => ({ quotes := qs, updatedAt := tDone, lastError := none }, none)
  | .error e => ({ st with lastError := some e }, some e)

/-- Which control path a `refreshQuotes` caller took. -/
inductive CallPath where
  /-- Returned at the freshness guard (server.js lines 172-174). -/
  | freshReturn : CallPath
  /-- Awaited an operation already in flight (server.js lines 176-179). -/
  | joined : CallPath
  /-- Started the fetch burst itself (server.js lines 181-195). -/
  | led : CallPath
  deriving DecidableEq

/-- Observable result of one `refreshQuotes` call: the path taken, how many
outbound fetch bursts this call started, its outcome (`none` = resolved,
`some e` = rejected with `e`) and the cache state once the call and any
operation it started have completed. -/
structure RefreshRun where
  path : CallPath
  bursts : Nat
  outcome : Option String
  final : CacheState
  deriving DecidableEq

/-- One `refreshQuotes(force)` call entered with no operation in flight
(server.js lines 170-196). `tCall` is `Date.now()` at entry,
`tDone` is `Date.now()` when the fetch burst resolves. -/
def refreshOnce (fetch : String → Except String Quote) (symbols : List String)
    (refreshMs : Int) (force : Bool) (tCall tDone : Int) (st : CacheState) :
    RefreshRun :=
  if freshHit force refreshMs tCall st then
    { path := .freshReturn, bursts := 0, outcome := none, final := st }
  else
    let r := refreshBody fetch symbols tDone st
    { path := .led, bursts := 1, outcome := r.2, final := r.1 }

/-- Joint observable result of two overlapping `refreshQuotes` calls. -/
structure TwoCallRun where
  bursts : Nat
  aPath : CallPath
  bPath : CallPath
  aOutcome : Option String
  bOutcome : Option String
  final : CacheState
  deriving DecidableEq

/-- Two `refreshQuotes` calls on the single-threaded event loop: caller A
enters at `tA` with no operation in flight; if A starts the fetch burst,
caller B enters at `tB` while A's operation is still pending (the cache
state is then still `st0`, since the body's mutations happen only when the
awaited burst settles at `tDoneA`); B either returns at the freshness
guard or awaits A's operation and observes its outcome. If A returns at
the freshness guard, B runs alone (server.js lines 170-196). -/
def twoRefreshCalls (fetch : String → Except String Quote) (symbols : List String)
    (refreshMs : Int) (forceA forceB : Bool) (tA tB tDoneA tDoneB : Int)
    (st0 : CacheState) : TwoCallRun :=
  if freshHit forceA refreshMs tA st0 then
    let rB := refreshOnce fetch symbols refreshMs forceB tB tDoneB st0
    { bursts := rB.bursts, aPath := .freshReturn, bPath := rB.path,
      aOutcome := none, bOutcome := rB.outcome, final := rB.final }
  else
    let rA := refreshBody fetch symbols tDoneA st0
    if freshHit forceB refreshMs tB st0 then
      { bursts := 1, aPath := .led, bPath := .freshReturn,
        aOutcome := rA.2, bOutcome := none, final := rA.1 }
    else
      { bursts := 1, aPath := .led, bPath := .joined,
        aOutcome := rA.2, bOutcome := rA.2, final := rA.1 }

/-- JS `Math.round` on a rational: round half toward positive infinity. -/
def jsRound (q : ℚ) : Int :=
  ⌊q + 1 / 2⌋

/-- JS `String.prototype.split(",")` on the character list of a string:
splits at every comma, keeping empty segments, and yields `[[]]` for the
empty string (as `"".split(",")` yields `[""]`). -/
def splitOnComma : List Char → List (List Char)
  | [] => [[]]
  | c :: rest =>
    let r := splitOnComma rest
    if c = ',' then [] :: r
    else (c :: r.headD []) :: r.tail

/-- JS `String.prototype.trim` on a character list: strips whitespace from
both ends (ASCII whitespace suffices for the inputs modelled here). -/
def trimChars (cs : List Char) : List Char :=
  ((cs.dropWhile Char.isWhitespace).reverse.dropWhile Char.isWhitespace).reverse

/-- Parsing of the `symbols` query parameter (server.js lines 219-222):
`(req.query.symbols || "").split(",").map(trim).filter(Boolean)`. -/
def parseQuerySymbols (q : String) : List String :=
  (((splitOnComma q.toList).map trimChars).map List.asString).filter
    (fun s => s ≠ "")

/-- A JSON response of `GET /api/data` (server.js lines 229-233, 242-246,
248-250). Absent fields are `none`. -/
structure DataResponse where
  status : Nat
  updatedAt : Option Int
  quotes : Option (List Quote)
  refreshMs : Option Int
  error : Option String
  deriving DecidableEq

/-- Result of one `GET /api/data` request: the response together with the
cache state and in-flight slot once the handler has responded. -/
structure ApiDataResult where
  response : DataResponse
  cache : CacheState
  inFlight : Bool
  deriving DecidableEq

/-- The `GET /api/data` handler (server.js lines 218-252).
`optionsRefreshMs` is the immutable `options.refreshMs` the server was
created with; `refreshMs` is the current value of the mutable `refreshMs`
variable. `inFlight` says whether a refresh operation is pending at entry
and `pending` is that operation's completion (its final cache state and
rethrown error), used only when the cache branch awaits it.
With a non-empty parsed `symbols` query the handler fetches exactly those
symbols and never touches `state` or `refreshInFlight`; otherwise it runs
`refreshQuotes(!state.quotes.length)` and serves the shared cache. -/
def apiDataHandler (fetch : String → Except String Quote)
    (configSymbols : List String) (refreshMs optionsRefreshMs : Int)
    (query : String) (now tDone : Int) (st : CacheState) (inFlight : Bool)
    (pending : CacheState × Option String) : ApiDataResult :=
  let querySymbols := parseQuerySymbols query
  if querySymbols.isEmpty then
    let force := st.quotes.isEmpty
    let afterRefresh :=
      if freshHit force refreshMs now st then (st, none, inFlight)
      else if inFlight then (pending.1, pending.2, false)
      else
        let r := refreshBody fetch configSymbols tDone st
        (r.1, r.2, false)
    match afterRefresh with
    | (st1, some e, fl) =>
      { response := { status := 502, updatedAt := none, quotes := none,
                      refreshMs := none, error := some e },
        cache := st1, inFlight := fl }
    | (st1, none, fl) =>
      if st1.quotes.isEmpty && st1.lastError.isSome then
        { response := { status := 502, updatedAt := none, quotes := none,
                        refreshMs := none,
                        error := st1.lastError },
          cache := st1, inFlight := fl }
      else
        { response := { status := 200, updatedAt := some st1.updatedAt,
                        quotes := some st1.quotes, refreshMs := some refreshMs,
                        error := none },
          cache := st1, inFlight := fl }
  else
    match fetchAll fetch querySymbols with
    | .ok qs =>
      { response := { status := 200, updatedAt := some now, quotes := some qs,
                      refreshMs := some optionsRefreshMs, error := none },
        cache := st, inFlight := inFlight }
    | .error e =>
      { response := { status := 502, updatedAt := none, quotes := none,
                      refreshMs := none, error := some e },
        cache := st, inFlight := inFlight }

/-- Result of one `POST /api/settings/refresh` request
(server.js lines 254-281): the HTTP status, the response body
`{refreshMs, refreshMinutes}` when 200, the value of the mutable
`refreshMs` variable afterwards, and whether the handler restarted the
interval timer / triggered `refreshQuotes(true)`. -/
structure SettingsResult where
  status : Nat
  body : Option (Int × Int)
  newRefreshMs : Int
  timerRestarted : Bool
  forcedRefresh : Bool
  deriving DecidableEq

/-- The `POST /api/settings/refresh` handler (server.js lines 254-281).
`raw` is `Number(minutes)`: `none` models a non-finite result
(`NaN` or infinite, rejected by `Number.isFinite`), `some m` a finite
numeric value. -/
def settingsRefreshHandler (raw : Option ℚ) (refreshMs : Int) : SettingsResult :=
  match raw with
  | none =>
    { status := 400, body := none, newRefreshMs := refreshMs,
      timerRestarted := false, forcedRefresh := false }
  | some minutes =>
    if minutes < 5 ∨ minutes > 720 then
      { status := 400, body := none, newRefreshMs := refreshMs,
        timerRestarted := false, forcedRefresh := false }
    else
      let newRefreshMs := jsRound (minutes * 60 * 1000)
      if newRefreshMs ≠ refreshMs then
        { status := 200,
          body := some (newRefreshMs, jsRound ((newRefreshMs : ℚ) / 60000)),
          newRefreshMs := newRefreshMs,
          timerRestarted := true, forcedRefresh := true }
      else
        { status := 200,
          body := some (refreshMs, jsRound ((refreshMs : ℚ) / 60000)),
          newRefreshMs := refreshMs,
          timerRestarted := false, forcedRefresh := false }

/-- Glyph height `FONT.height` (server.js line 365). -/
def glyphHeight : Nat := 7

/-- Glyph width `FONT.width` (server.js line 366). -/
def glyphWidth : Nat := 5

/-- `FONT.data` (server.js lines 370-414): 5x7 bitmap rows per character;
the source's `glyph` helper pads/truncates each row to width 5, which is
the identity on these rows. Unmapped characters fall back to the space
glyph, matching `FONT.data[char] || FONT.data[" "]` (line 458). -/
def fontRows (c : Char) : List String :=
  match c with
  | '0' => [" ### ", "#   #", "#   #", "#   #", "#   #", "#   #", " ### "]
  | '1' => ["  #  ", " ##  ", "# #  ", "  #  ", "  #  ", "  #  ", "#####"]
  | '2' => [" ### ", "#   #", "    #", "   # ", "  #  ", " #   ", "#####"]
  | '3' => [" ### ", "#   #", "    #", " ### ", "    #", "#   #", " ### "]
  | '4' => ["   # ", "  ## ", " # # ", "#  # ", "#####", "   # ", "   # "]
  | '5' => ["#####", "#    ", "#    ", "#### ", "    #", "    #", "#### "]
  | '6' => [" ### ", "#    ", "#    ", "#### ", "#   #", "#   #", " ### "]
  | '7' => ["#####", "    #", "   # ", "  #  ", " #   ", " #   ", " #   "]
  | '8' => [" ### ", "#   #", "#   #", " ### ", "#   #", "#   #", " ### "]
  | '9' => [" ### ", "#   #", "#   #", " ####", "    #", "    #", " ### "]
  | 'A' => [" ### ", "#   #", "#   #", "#####", "#   #", "#   #", "#   #"]
  | 'B' => ["#### ", "#   #", "#   #", "#### ", "#   #", "#   #", "#### "]
  | 'C' => [" ### ", "#   #", "#    ", "#    ", "#    ", "#   #", " ### "]
  | 'D' => ["#### ", "#   #", "#   #", "#   #", "#   #", "#   #", "#### "]
  | 'E' => ["#####", "#    ", "#    ", "#### ", "#    ", "#    ", "#####"]
  | 'F' => ["#####", "#    ", "#    ", "#### ", "#    ", "#    ", "#    "]
  | 'G' => [" ### ", "#   #", "#    ", "# ###", "#   #", "#   #", " ### "]
  | 'H' => ["#   #", "#   #", "#   #", "#####", "#   #", "#   #", "#   #"]
  | 'I' => ["#####", "  #  ", "  #  ", "  #  ", "  #  ", "  #  ", "#####"]
  | 'J' => ["#####", "   # ", "   # ", "   # ", "   # ", "#  # ", " ##  "]
  | 'K' => ["#   #", "#  # ", "# #  ", "##   ", "# #  ", "#  # ", "#   #"]
  | 'L' => ["#    ", "#    ", "#    ", "#    ", "#    ", "#    ", "#####"]
  | 'M' => ["#   #", "## ##", "# # #", "#   #", "#   #", "#   #", "#   #"]
  | 'N' => ["#   #", "##  #", "# # #", "#  ##", "#   #", "#   #", "#   #"]
  | 'O' => [" ### ", "#   #", "#   #", "#   #", "#   #", "#   #", " ### "]
  | 'P' => ["#### ", "#   #", "#   #", "#### ", "#    ", "#    ", "#    "]
  | 'Q' => [" ### ", "#   #", "#   #", "#   #", "# # #", "#  # ", " ## #"]
  | 'R' => ["#### ", "#   #", "#   #", "#### ", "# #  ", "#  # ", "#   #"]
  | 'S' => [" ####", "#    ", "#    ", " ### ", "    #", "    #", "#### "]
  | 'T' => ["#####", "  #  ", "  #  ", "  #  ", "  #  ", "  #  ", "  #  "]
  | 'U' => ["#   #", "#   #", "#   #", "#   #", "#   #", "#   #", " ### "]
  | 'V' => ["#   #", "#   #", "#   #", "#   #", "#   #", " # # ", "  #  "]
  | 'W' => ["#   #", "#   #", "#   #", "# # #", "# # #", "## ##", "#   #"]
  | 'X' => ["#   #", "#   #", " # # ", "  #  ", " # # ", "#   #", "#   #"]
  | 'Y' => ["#   #", "#   #", " # # ", "  #  ", "  #  ", "  #  ", "  #  "]
  | 'Z' => ["#####", "    #", "   # ", "  #  ", " #   ", "#    ", "#####"]
  | '-' => ["     ", "     ", "     ", "#####", "     ", "     ", "     "]
  | '+' => ["     ", "  #  ", "  #  ", "#####", "  #  ", "  #  ", "     "]
  | '.' => ["     ", "     ", "     ", "     ", "     ", " ##  ", " ##  "]
  | ':' => ["     ", " ##  ", " ##  ", "     ", " ##  ", " ##  ", "     "]
  | '/' => ["    #", "    #", "   # ", "  #  ", " #   ", "#    ", "#    "]
  | '%' => ["#   #", "   # ", "  #  ", " #   ", "#   #", "     ", "     "]
  | _ => ["     ", "     ", "     ", "     ", "     ", "     ", "     "]

/-- `glyph[y][x] !== " "` (server.js line 462): whether the glyph's pixel
at row `y`, column `x` is set. -/
def pixelAt (g : List String) (y x : Nat) : Bool :=
  (g.getD y "").toList.getD x ' ' ≠ ' '

/-- `Array(height).fill(0)`: an all-blank pixel column. -/
def blankColumn (height : Nat) : List Bool :=
  List.replicate height false

/-- The columns emitted for one character of a line (server.js lines
457-472): `glyphWidth` pixel columns — row `baseRow + y` set when the
glyph pixel `(y, x)` is set and the row is inside `[0, height)` — followed
by one blank spacing column. -/
def charColumns (c : Char) (baseRow height : Nat) : List (List Bool) :=
  ((List.range glyphWidth).map fun x =>
    (List.range height).map fun r =>
      decide (baseRow ≤ r) && decide (r < baseRow + glyphHeight) &&
        pixelAt (fontRows c) (r - baseRow) x)
  ++ [blankColumn height]

/-- JS `String.prototype.toUpperCase`, modelled character-wise (the ASCII
range suffices for the glyph table's domain). -/
def jsToUpper (s : String) : String :=
  List.asString (s.toList.map Char.toUpper)

/-- The per-line column sequence (server.js lines 453-479): an empty
message is replaced by a single space, the text is uppercased, each
character contributes its glyph columns plus spacing, and `glyphWidth`
trailing blank columns are appended. -/
def lineColumns (message : String) (baseRow height : Nat) : List (List Bool) :=
  let text := if message.length ≠ 0 then jsToUpper message else " "
  (text.toList.flatMap fun c => charColumns c baseRow height)
    ++ List.replicate glyphWidth (blankColumn height)

/-- The allocation loop of `buildColumns` (server.js lines 437-451),
recursing on the number of remaining lines. For each line it yields
`(message, segmentHeight, baseRow)`: the message `lines[i] ?? " "`, the
band height `baseHeight` plus one while `remainder > 0`, and the clamped
vertically centered start row. `Math.max(0, _)` steps are realized by
truncating `Nat` subtraction. -/
def allocLoop (lines : List String) (height baseHeight : Nat) :
    Nat → Nat → Nat → Nat → List (String × Nat × Nat)
  | 0, _, _, _ => []
  | count + 1, i, remainder, offsetBase =>
    let segmentHeight := baseHeight + (if 0 < remainder then 1 else 0)
    let available := max segmentHeight glyphHeight
    let topPad := (available - glyphHeight) / 2
    let baseRow := min (offsetBase + topPad) (height - glyphHeight)
    (lines.getD i " ", segmentHeight, baseRow) ::
      allocLoop lines height baseHeight count (i + 1)
        (if 0 < remainder then remainder - 1 else remainder)
        (offsetBase + segmentHeight)

/-- The `allocations` array of `buildColumns` (server.js lines 430-451),
extended with each band's `segmentHeight`:
`lineCount = max(1, lines.length)`, `baseHeight = floor(height/lineCount)`,
initial `remainder = height - baseHeight * lineCount`. -/
def allocTriples (lines : List String) (height : Nat) : List (String × Nat × Nat) :=
  let lineCount := max 1 lines.length
  let baseHeight := height / lineCount
  allocLoop lines height baseHeight lineCount 0
    (height - baseHeight * lineCount) 0

/-- `buildColumns` (server.js lines 423-501): per-line column sequences
are merged column-index-wise by bitwise OR over
`maxColumns = Math.max(1, ...lengths)` columns (a line past its own length
contributes blanks), and a zero-length output would degrade to one blank
column. A single (non-array) message is the singleton list. -/
def buildColumns (lines : List String) (height : Nat) : List (List Bool) :=
  let perLine := (allocTriples lines height).map fun a =>
    lineColumns a.1 a.2.2 height
  let maxColumns := (perLine.map List.length).foldl max 1
  let output := (List.range maxColumns).map fun idx =>
    (List.range height).map fun y =>
      perLine.any fun lc => (lc.getD idx []).getD y false
  if output.isEmpty then [blankColumn height] else output

/-- The client scroll state: circular read `offset` into the reel and the
time of the last completed scroll step (server.js lines 419-421). -/
structure ScrollState where
  offset : Nat
  lastStep : Int
  deriving DecidableEq

/-- One invocation of the animation-frame callback `step(timestamp)`
(server.js lines 513-520): only when `timestamp - lastStep ≥ scrollInterval`
does it advance `offset` by one modulo the reel length and record the new
step time. -/
def scrollStep (scrollInterval : Int) (reelLen : Nat) (timestamp : Int)
    (s : ScrollState) : ScrollState :=
  if scrollInterval ≤ timestamp - s.lastStep then
    { offset := (s.offset + 1) % reelLen, lastStep := timestamp }
  else s

/-! ### Lemmas about the fetch burst -/

theorem fetchAll_ok_length {fetch : String → Except String Quote} :
    ∀ {symbols : List String} {qs : List Quote},
      fetchAll fetch symbols = .ok qs → qs.length = symbols.length := by
  intro symbols
  induction symbols with
  | nil => intro qs h; simp [fetchAll] at h; simp [← h]
  | cons s rest ih =>
    intro qs h
    unfold fetchAll at h
    cases hs : fetch s with
    | error e => rw [hs] at h; exact absurd h (by simp)
    | ok q =>
      rw [hs] at h
      cases hr : fetchAll fetch rest with
      | error e => rw [hr] at h; exact absurd h (by simp)
      | ok qs0 =>
        rw [hr] at h
        cases h
        simp [ih hr]

theorem fetchAll_ok_of_forall {fetch : String → Except String Quote} :
    ∀ {symbols : List String}, (∀ s ∈ symbols, ∃ q, fetch s = .ok q) →
      ∃ qs, fetchAll fetch symbols = .ok qs := by
  intro symbols
  induction symbols with
  | nil => intro _; exact ⟨[], rfl⟩
  | cons s rest ih =>
    intro h
    obtain ⟨q, hq⟩ := h s (List.mem_cons_self s rest)
    obtain ⟨qs, hqs⟩ := ih fun x hx => h x (List.mem_cons_of_mem s hx)
    exact ⟨q :: qs, by unfold fetchAll; rw [hq, hqs]⟩

theorem fetchAll_error_of_exists {fetch : String → Except String Quote} :
    ∀ {symbols : List String}, (∃ s ∈ symbols, ∀ q, fetch s ≠ .ok q) →
      ∃ e, fetchAll fetch symbols = .error e := by
  intro symbols
  induction symbols with
  | nil => intro h; simp at h
  | cons s rest ih =>
    intro h
    unfold fetchAll
    cases hs : fetch s with
    | error e => exact ⟨e, rfl⟩
    | ok q =>
      obtain ⟨x, hx, hbad⟩ := h
      rcases List.mem_cons.mp hx with rfl | hx0
      · exact absurd hs (hbad q)
      · obtain ⟨e, he⟩ := ih ⟨x, hx0, hbad⟩
        exact ⟨e, by rw [he]⟩

theorem fetchAll_ok_get {fetch : String → Except String Quote} :
    ∀ {symbols : List String} {qs : List Quote},
      fetchAll fetch symbols = .ok qs →
      ∀ i (hi : i < symbols.length) (hq : i < qs.length),
        fetch (symbols.get ⟨i, hi⟩) = .ok (qs.get ⟨i, hq⟩) := by
  intro symbols
  induction symbols with
  | nil => intro qs _ i hi; exact absurd hi (by simp)
  | cons s rest ih =>
    intro qs h i hi hq
    unfold fetchAll at h
    cases hs : fetch s with
    | error e => rw [hs] at h; exact absurd h (by simp)
    | ok q =>
      rw [hs] at h
      cases hr : fetchAll fetch rest with
      | error e => rw [hr] at h; exact absurd h (by simp)
      | ok qs0 =>
        rw [hr] at h
        cases h
        match i with
        | 0 => simpa using hs
        | j + 1 => exact ih hr j (by simpa using hi) (by simpa using hq)

/-! ### Claims about the quote cache -/

/-- C2: a refresh over a non-empty symbol list either fetches every symbol
successfully and replaces `quotes` (one quote per symbol, in order) and
`updatedAt` atomically with `lastError` cleared, or some symbol fails, the
refresh rejects as a whole, and only `lastError` changes — never a partial
replacement. -/
theorem refresh_atomic_or_unchanged (fetch : String → Except String Quote)
    (symbols : List String) (hne : symbols ≠ []) (tDone : Int) (st : CacheState) :
    ((∀ s ∈ symbols, ∃ q, fetch s = .ok q) →
      ∃ qs, fetchAll fetch symbols = .ok qs ∧ qs.length = symbols.length ∧
        (∀ i (hi : i < symbols.length) (hq : i < qs.length),
          fetch (symbols.get ⟨i, hi⟩) = .ok (qs.get ⟨i, hq⟩)) ∧
        refreshBody fetch symbols tDone st =
          ({ quotes := qs, updatedAt := tDone, lastError := none }, none)) ∧
    ((∃ s ∈ symbols, ∀ q, fetch s ≠ .ok q) →
      ∃ e, fetchAll fetch symbols = .error e ∧
        refreshBody fetch symbols tDone st =
          ({ st with lastError := some e }, some e)) := by
  constructor
  · intro hall
    obtain ⟨qs, hqs⟩ := fetchAll_ok_of_forall hall
    exact ⟨qs, hqs, fetchAll_ok_length hqs, fetchAll_ok_get hqs,
      by unfold refreshBody; rw [hqs]⟩
  · intro hsome
    obtain ⟨e, he⟩ := fetchAll_error_of_exists hsome
    exact ⟨e, he, by unfold refreshBody; rw [he]⟩

theorem refresh_atomic_or_unchanged_witness :
    (∃ qs,
      fetchAll (fun s => .ok ⟨s, none, "USD", none, none, none⟩) ["AAPL"] = .ok qs ∧
      qs.length = (["AAPL"] : List String).length ∧
      (∀ i (hi : i < (["AAPL"] : List String).length) (hq : i < qs.length),
        (fun s => (Except.ok ⟨s, none, "USD", none, none, none⟩ :
            Except String Quote))
          ((["AAPL"] : List String).get ⟨i, hi⟩) = .ok (qs.get ⟨i, hq⟩)) ∧
      refreshBody (fun s => .ok ⟨s, none, "USD", none, none, none⟩)
          ["AAPL"] 7 { quotes := [], updatedAt := 0, lastError := none } =
        ({ quotes := qs, updatedAt := 7, lastError := none }, none)) :=
  (refresh_atomic_or_unchanged
    (fun s => .ok ⟨s, none, "USD", none, none, none⟩)
    ["AAPL"] (by decide) 7 { quotes := [], updatedAt := 0, lastError := none }).1
    (fun s _ => ⟨⟨s, none, "USD", none, none, none⟩, rfl⟩)

/-- C8: a non-forced refresh on a populated cache younger than the
configured interval returns at the freshness guard: no fetch burst, a
resolved outcome, and a completely unchanged cache state. -/
theorem refresh_freshHit_no_fetch (fetch : String → Except String Quote)
    (symbols : List String) (refreshMs : Int) (tCall tDone : Int)
    (st : CacheState) (hq : st.quotes ≠ [])
    (hfresh : tCall - st.updatedAt < refreshMs) :
    refreshOnce fetch symbols refreshMs false tCall tDone st =
      { path := .freshReturn, bursts := 0, outcome := none, final := st } := by
  unfold refreshOnce
  rw [if_pos]
  unfold freshHit
  simp [List.isEmpty_iff, hq, hfresh]

theorem refresh_freshHit_no_fetch_witness :
    refreshOnce (fun _ => .error "down") ["AAPL"] 1800000 false 2000 3000
      { quotes := [{ symbol := "AAPL", price := none, currency := "USD",
                     change := none, changePercent := none, timestamp := none }],
        updatedAt := 1000, lastError := none } =
      { path := .freshReturn, bursts := 0, outcome := none,
        final := { quotes := [{ symbol := "AAPL", price := none, currency := "USD",
                                change := none, changePercent := none, timestamp := none }],
                   updatedAt := 1000, lastError := none } } :=
  refresh_freshHit_no_fetch (fun _ => .error "down") ["AAPL"] 1800000 2000 3000
    _ (by decide) (by decide)

/-- C1 counterexample: with a populated, fresh cache, a forced refresh (A)
is in flight and fails, while a second, non-forced refresh call (B) issued
while A's operation is pending returns at the freshness guard without
awaiting it: only one fetch burst happens, but B resolves while A rejects,
so the two callers do not observe an identical outcome. -/
theorem twoRefresh_different_outcomes :
    (twoRefreshCalls (fun _ => .error "boom") ["AAPL"] 1800000 true false
        2000 2500 3000 3000
        { quotes := [{ symbol := "AAPL", price := none, currency := "USD",
                       change := none, changePercent := none, timestamp := none }],
          updatedAt := 1000, lastError := none }).aPath = .led ∧
    (twoRefreshCalls (fun _ => .error "boom") ["AAPL"] 1800000 true false
        2000 2500 3000 3000
        { quotes := [{ symbol := "AAPL", price := none, currency := "USD",
                       change := none, changePercent := none, timestamp := none }],
          updatedAt := 1000, lastError := none }).bursts = 1 ∧
    (twoRefreshCalls (fun _ => .error "boom") ["AAPL"] 1800000 true false
        2000 2500 3000 3000
        { quotes := [{ symbol := "AAPL", price := none, currency := "USD",
                       change := none, changePercent := none, timestamp := none }],
          updatedAt := 1000, lastError := none }).bOutcome ≠
      (twoRefreshCalls (fun _ => .error "boom") ["AAPL"] 1800000 true false
        2000 2500 3000 3000
        { quotes := [{ symbol := "AAPL", price := none, currency := "USD",
                       change := none, changePercent := none, timestamp := none }],
          updatedAt := 1000, lastError := none }).aOutcome := by
  decide

/-- C1 amended: two overlapping refresh calls start at most one fetch
burst; and when neither caller takes the freshness early return, the first
leads, the second joins the same in-flight operation, and both observe the
identical outcome. (A caller that takes the freshness early return while
an operation is in flight resolves immediately without awaiting it.) -/
theorem twoRefresh_single_flight (fetch : String → Except String Quote)
    (symbols : List String) (refreshMs : Int) (forceA forceB : Bool)
    (tA tB tDoneA tDoneB : Int) (st0 : CacheState) :
    (twoRefreshCalls fetch symbols refreshMs forceA forceB
        tA tB tDoneA tDoneB st0).bursts ≤ 1 ∧
    (freshHit forceA refreshMs tA st0 = false →
      freshHit forceB refreshMs tB st0 = false →
      (twoRefreshCalls fetch symbols refreshMs forceA forceB
          tA tB tDoneA tDoneB st0).aPath = .led ∧
      (twoRefreshCalls fetch symbols refreshMs forceA forceB
          tA tB tDoneA tDoneB st0).bPath = .joined ∧
      (twoRefreshCalls fetch symbols refreshMs forceA forceB
          tA tB tDoneA tDoneB st0).bOutcome =
        (twoRefreshCalls fetch symbols refreshMs forceA forceB
          tA tB tDoneA tDoneB st0).aOutcome) := by
  constructor
  · unfold twoRefreshCalls refreshOnce
    split
    · split <;> simp
    · split <;> simp
  · intro hA hB
    unfold twoRefreshCalls
    rw [hA, hB]
    simp

theorem twoRefresh_single_flight_witness :
    (twoRefreshCalls (fun _ => .error "down") ["AAPL"] 600 false false
        0 0 1 1 { quotes := [], updatedAt := 0, lastError := none }).bursts ≤ 1 ∧
    ((twoRefreshCalls (fun _ => .error "down") ["AAPL"] 600 false false
        0 0 1 1 { quotes := [], updatedAt := 0, lastError := none }).aPath = .led ∧
     (twoRefreshCalls (fun _ => .error "down") ["AAPL"] 600 false false
        0 0 1 1 { quotes := [], updatedAt := 0, lastError := none }).bPath = .joined ∧
     (twoRefreshCalls (fun _ => .error "down") ["AAPL"] 600 false false
        0 0 1 1 { quotes := [], updatedAt := 0, lastError := none }).bOutcome =
       (twoRefreshCalls (fun _ => .error "down") ["AAPL"] 600 false false
        0 0 1 1 { quotes := [], updatedAt := 0, lastError := none }).aOutcome) :=
  ⟨(twoRefresh_single_flight (fun _ => .error "down") ["AAPL"] 600 false false
      0 0 1 1 { quotes := [], updatedAt := 0, lastError := none }).1,
   (twoRefresh_single_flight (fun _ => .error "down") ["AAPL"] 600 false false
      0 0 1 1 { quotes := [], updatedAt := 0, lastError := none }).2
      (by decide) (by decide)⟩

/-- C7: one invocation of the scroll step with timestamp `t` leaves the
scroll state unchanged when `t - lastStep < scrollInterval`, and otherwise
advances `offset` by exactly one modulo the reel length while recording
`t` as the new step time. -/
theorem scrollStep_spec (scrollInterval : Int) (reelLen : Nat) (t : Int)
    (s : ScrollState) :
    (t - s.lastStep < scrollInterval →
      scrollStep scrollInterval reelLen t s = s) ∧
    (scrollInterval ≤ t - s.lastStep →
      scrollStep scrollInterval reelLen t s =
        { offset := (s.offset + 1) % reelLen, lastStep := t }) := by
  constructor
  · intro h
    unfold scrollStep
    rw [if_neg (not_le.mpr h)]
  · intro h
    unfold scrollStep
    rw [if_pos h]

theorem scrollStep_spec_witness :
    scrollStep 70 71 30 { offset := 0, lastStep := 0 } =
      { offset := 0, lastStep := 0 } ∧
    scrollStep 70 71 100 { offset := 0, lastStep := 0 } =
      { offset := 1, lastStep := 100 } :=
  ⟨(scrollStep_spec 70 71 30 { offset := 0, lastStep := 0 }).1 (by decide),
   (scrollStep_spec 70 71 100 { offset := 0, lastStep := 0 }).2 (by decide)⟩

/-- C4 counterexample: posting an in-range cadence equal to the current
one (30 minutes against a current `refreshMs` of 1800000 ms, the startup
default) is accepted with HTTP 200, but the handler neither restarts the
timer nor triggers a forced refresh, contrary to the claim that every
in-range value triggers an immediate forced refresh. -/
theorem settingsRefresh_equal_cadence_no_refresh :
    (5 : ℚ) ≤ 30 ∧ (30 : ℚ) ≤ 720 ∧
    (settingsRefreshHandler (some 30) 1800000).status = 200 ∧
    (settingsRefreshHandler (some 30) 1800000).forcedRefresh = false ∧
    (settingsRefreshHandler (some 30) 1800000).timerRestarted = false := by
  have h : jsRound ((30 : ℚ) * 60 * 1000) = 1800000 := by norm_num [jsRound]
  refine ⟨by norm_num, by norm_num, ?_, ?_, ?_⟩ <;>
    simp [settingsRefreshHandler, h] <;> norm_num

/-- C4 amended: the handler rejects with HTTP 400 exactly the non-numeric
and out-of-range values; an in-range value is answered with HTTP 200 and a
`{refreshMs, refreshMinutes}` body, and the scheduler restart plus the
immediate forced refresh happen exactly when the rounded millisecond value
differs from the current cadence. -/
theorem settingsRefresh_spec (raw : Option ℚ) (refreshMs : Int) :
    ((settingsRefreshHandler raw refreshMs).status = 400 ↔
      raw = none ∨ ∃ m, raw = some m ∧ (m < 5 ∨ m > 720)) ∧
    (∀ m, raw = some m → 5 ≤ m → m ≤ 720 →
      (settingsRefreshHandler raw refreshMs).status = 200 ∧
      (settingsRefreshHandler raw refreshMs).newRefreshMs =
        jsRound (m * 60 * 1000) ∧
      (settingsRefreshHandler raw refreshMs).body =
        some (jsRound (m * 60 * 1000),
          jsRound ((jsRound (m * 60 * 1000) : ℚ) / 60000)) ∧
      ((settingsRefreshHandler raw refreshMs).forcedRefresh = true ↔
        jsRound (m * 60 * 1000) ≠ refreshMs) ∧
      ((settingsRefreshHandler raw refreshMs).timerRestarted = true ↔
        jsRound (m * 60 * 1000) ≠ refreshMs)) := by
  cases raw with
  | none => simp [settingsRefreshHandler]
  | some m =>
    by_cases hr : m < 5 ∨ m > 720
    · constructor
      · simp [settingsRefreshHandler, hr]
      · intro m' hm' h5 h720
        cases hm'
        rcases hr with h | h <;> linarith
    · push_neg at hr
      constructor
      · by_cases hnew : jsRound (m * 60 * 1000) = refreshMs <;>
          simp [settingsRefreshHandler, not_or.mpr
            ⟨not_lt.mpr hr.1, not_lt.mpr hr.2⟩, hnew]
      · intro m' hm' _ _
        have hmm : m' = m := by injection hm' with h; exact h.symm
        subst hmm
        by_cases hnew : jsRound (m' * 60 * 1000) = refreshMs <;>
          simp [settingsRefreshHandler, not_or.mpr
            ⟨not_lt.mpr hr.1, not_lt.mpr hr.2⟩, hnew]

theorem settingsRefresh_spec_witness :
    (settingsRefreshHandler (some 15) 1800000).status = 200 ∧
    (settingsRefreshHandler (some 15) 1800000).newRefreshMs =
      jsRound ((15 : ℚ) * 60 * 1000) ∧
    (settingsRefreshHandler (some 15) 1800000).body =
      some (jsRound ((15 : ℚ) * 60 * 1000),
        jsRound ((jsRound ((15 : ℚ) * 60 * 1000) : ℚ) / 60000)) ∧
    ((settingsRefreshHandler (some 15) 1800000).forcedRefresh = true ↔
      jsRound ((15 : ℚ) * 60 * 1000) ≠ 1800000) ∧
    ((settingsRefreshHandler (some 15) 1800000).timerRestarted = true ↔
      jsRound ((15 : ℚ) * 60 * 1000) ≠ 1800000) :=
  (settingsRefresh_spec (some 15) 1800000).2 15 rfl (by decide) (by decide)

/-- C9: a `GET /api/data` request with a non-empty parsed `symbols` query
performs an uncached fetch for exactly those symbols and leaves the shared
cache state and the in-flight slot unchanged, answering 200 with the
fetched quotes on success and 502 on failure. -/
theorem apiData_symbols_frame (fetch : String → Except String Quote)
    (configSymbols : List String) (refreshMs optionsRefreshMs : Int)
    (query : String) (now tDone : Int) (st : CacheState) (inFlight : Bool)
    (pending : CacheState × Option String)
    (hq : parseQuerySymbols query ≠ []) :
    (apiDataHandler fetch configSymbols refreshMs optionsRefreshMs query now
        tDone st inFlight pending).cache = st ∧
    (apiDataHandler fetch configSymbols refreshMs optionsRefreshMs query now
        tDone st inFlight pending).inFlight = inFlight ∧
    ((∃ qs, fetchAll fetch (parseQuerySymbols query) = .ok qs ∧
        (apiDataHandler fetch configSymbols refreshMs optionsRefreshMs query
            now tDone st inFlight pending).response =
          { status := 200, updatedAt := some now, quotes := some qs,
            refreshMs := some optionsRefreshMs, error := none }) ∨
     (∃ e, fetchAll fetch (parseQuerySymbols query) = .error e ∧
        (apiDataHandler fetch configSymbols refreshMs optionsRefreshMs query
            now tDone st inFlight pending).response =
          { status := 502, updatedAt := none, quotes := none,
            refreshMs := none, error := some e })) := by
  have hne : (parseQuerySymbols query).isEmpty = false := by
    simpa [List.isEmpty_iff] using hq
  cases hfa : fetchAll fetch (parseQuerySymbols query) with
  | ok qs =>
    refine ⟨?_, ?_, .inl ⟨qs, rfl, ?_⟩⟩ <;> simp [apiDataHandler, hne, hfa]
  | error e =>
    refine ⟨?_, ?_, .inr ⟨e, rfl, ?_⟩⟩ <;> simp [apiDataHandler, hne, hfa]

theorem apiData_symbols_frame_witness :
    (apiDataHandler (fun _ => .error "down") ["MSFT"] 900000 1800000 "AAPL"
        2000 2100 { quotes := [], updatedAt := 0, lastError := none } false
        ({ quotes := [], updatedAt := 0, lastError := none }, none)).cache =
      { quotes := [], updatedAt := 0, lastError := none } ∧
    (apiDataHandler (fun _ => .error "down") ["MSFT"] 900000 1800000 "AAPL"
        2000 2100 { quotes := [], updatedAt := 0, lastError := none } false
        ({ quotes := [], updatedAt := 0, lastError := none }, none)).inFlight =
      false ∧
    ((∃ qs, fetchAll (fun _ => .error "down") (parseQuerySymbols "AAPL") = .ok qs ∧
        (apiDataHandler (fun _ => .error "down") ["MSFT"] 900000 1800000 "AAPL"
            2000 2100 { quotes := [], updatedAt := 0, lastError := none } false
            ({ quotes := [], updatedAt := 0, lastError := none }, none)).response =
          { status := 200, updatedAt := some 2000, quotes := some qs,
            refreshMs := some 1800000, error := none }) ∨
     (∃ e, fetchAll (fun _ => .error "down") (parseQuerySymbols "AAPL") = .error e ∧
        (apiDataHandler (fun _ => .error "down") ["MSFT"] 900000 1800000 "AAPL"
            2000 2100 { quotes := [], updatedAt := 0, lastError := none } false
            ({ quotes := [], updatedAt := 0, lastError := none }, none)).response =
          { status := 502, updatedAt := none, quotes := none,
            refreshMs := none, error := some e })) :=
  apiData_symbols_frame (fun _ => .error "down") ["MSFT"] 900000 1800000 "AAPL"
    2000 2100 { quotes := [], updatedAt := 0, lastError := none } false
    ({ quotes := [], updatedAt := 0, lastError := none }, none) (by decide)

/-- C10: after a successful cadence change (in-range minutes whose rounded
millisecond value differs from the startup `options.refreshMs`), the
symbols branch of `GET /api/data` still reports the immutable startup
`options.refreshMs` whenever it reports a `refreshMs` at all, while the
query-free branch (here answering from a fresh populated cache) reports
the updated live cadence. -/
theorem apiData_refreshMs_reporting (fetch : String → Except String Quote)
    (configSymbols : List String) (optionsRefreshMs : Int) (m : ℚ)
    (query : String) (now tDone : Int) (st : CacheState) (inFlight : Bool)
    (pending : CacheState × Option String)
    (h5 : 5 ≤ m) (h720 : m ≤ 720)
    (hchanged : jsRound (m * 60 * 1000) ≠ optionsRefreshMs)
    (hq : parseQuerySymbols query ≠ [])
    (hpop : st.quotes ≠ [])
    (hfresh : now - st.updatedAt < jsRound (m * 60 * 1000)) :
    (settingsRefreshHandler (some m) optionsRefreshMs).status = 200 ∧
    (settingsRefreshHandler (some m) optionsRefreshMs).newRefreshMs =
      jsRound (m * 60 * 1000) ∧
    (∀ v, (apiDataHandler fetch configSymbols (jsRound (m * 60 * 1000))
        optionsRefreshMs query now tDone st inFlight pending).response.refreshMs =
          some v → v = optionsRefreshMs) ∧
    (apiDataHandler fetch configSymbols (jsRound (m * 60 * 1000))
        optionsRefreshMs "" now tDone st inFlight pending).response.refreshMs =
      some (jsRound (m * 60 * 1000)) := by
  have hsettings :
      settingsRefreshHandler (some m) optionsRefreshMs =
        { status := 200,
          body := some (jsRound (m * 60 * 1000),
            jsRound ((jsRound (m * 60 * 1000) : ℚ) / 60000)),
          newRefreshMs := jsRound (m * 60 * 1000),
          timerRestarted := true, forcedRefresh := true } := by
    simp [settingsRefreshHandler, not_or.mpr
      ⟨not_lt.mpr h5, not_lt.mpr h720⟩, hchanged]
  have hne : (parseQuerySymbols query).isEmpty = false := by
    simpa [List.isEmpty_iff] using hq
  have hie : st.quotes.isEmpty = false := by
    simpa [List.isEmpty_iff] using hpop
  have hguard : freshHit false (jsRound (m * 60 * 1000)) now st = true := by
    simp [freshHit, hie, hfresh]
  refine ⟨by rw [hsettings], by rw [hsettings], ?_, ?_⟩
  · intro v hv
    revert hv
    cases hfa : fetchAll fetch (parseQuerySymbols query) with
    | ok qs =>
      simp [apiDataHandler, hne, hfa]
      exact fun h => h.symm
    | error e => simp [apiDataHandler, hne, hfa]
  · have hpe : parseQuerySymbols "" = [] := by decide
    simp [apiDataHandler, hpe, hguard, hie, hpop]

theorem apiData_refreshMs_reporting_witness :
    (settingsRefreshHandler (some 15) 1800000).status = 200 ∧
    (settingsRefreshHandler (some 15) 1800000).newRefreshMs =
      jsRound ((15 : ℚ) * 60 * 1000) ∧
    (∀ v, (apiDataHandler (fun s => .ok ⟨s, none, "USD", none, none, none⟩)
        ["AAPL"] (jsRound ((15 : ℚ) * 60 * 1000)) 1800000 "AAPL" 2000 2100
        { quotes := [⟨"AAPL", none, "USD", none, none, none⟩],
          updatedAt := 1000, lastError := none } false
        ({ quotes := [], updatedAt := 0, lastError := none },
          none)).response.refreshMs = some v → v = 1800000) ∧
    (apiDataHandler (fun s => .ok ⟨s, none, "USD", none, none, none⟩)
        ["AAPL"] (jsRound ((15 : ℚ) * 60 * 1000)) 1800000 "" 2000 2100
        { quotes := [⟨"AAPL", none, "USD", none, none, none⟩],
          updatedAt := 1000, lastError := none } false
        ({ quotes := [], updatedAt := 0, lastError := none },
          none)).response.refreshMs = some (jsRound ((15 : ℚ) * 60 * 1000)) :=
  apiData_refreshMs_reporting (fun s => .ok ⟨s, none, "USD", none, none, none⟩)
    ["AAPL"] 1800000 15 "AAPL" 2000 2100
    { quotes := [⟨"AAPL", none, "USD", none, none, none⟩],
      updatedAt := 1000, lastError := none } false
    ({ quotes := [], updatedAt := 0, lastError := none }, none)
    (by decide) (by decide) (by norm_num [jsRound]) (by decide) (by decide)
    (by norm_num [jsRound])

/-! ### Lemmas about the band allocation loop -/

theorem allocLoop_length (lines : List String) (height baseHeight : Nat) :
    ∀ (count i r ob : Nat),
      (allocLoop lines height baseHeight count i r ob).length = count := by
  intro count
  induction count with
  | zero => intro i r ob; rfl
  | succ n ih => intro i r ob; simp [allocLoop, ih]

theorem allocLoop_height_getD (lines : List String) (height baseHeight : Nat) :
    ∀ (count i r ob j : Nat), j < count →
      ((allocLoop lines height baseHeight count i r ob).getD j
          (" ", 0, 0)).2.1 =
        if j < r then baseHeight + 1 else baseHeight := by
  intro count
  induction count with
  | zero => intro i r ob j hj; exact absurd hj (by omega)
  | succ n ih =>
    intro i r ob j hj
    match j with
    | 0 =>
      simp only [allocLoop, List.getD_cons_zero]
      split <;> rename_i h <;> simp [h]
    | k + 1 =>
      have hk : k < n := by omega
      simp only [allocLoop, List.getD_cons_succ]
      rw [ih (i + 1) (if 0 < r then r - 1 else r) _ k hk]
      by_cases hr : 0 < r
      · simp only [if_pos hr]
        by_cases hkr : k + 1 < r
        · rw [if_pos (show k < r - 1 by omega), if_pos hkr]
        · rw [if_neg (show ¬ k < r - 1 by omega), if_neg hkr]
      · simp only [if_neg hr]
        rw [if_neg (show ¬ k < r by omega), if_neg (show ¬ k + 1 < r by omega)]

theorem allocLoop_height_sum (lines : List String) (height baseHeight : Nat) :
    ∀ (count i r ob : Nat),
      ((allocLoop lines height baseHeight count i r ob).map
          (fun a => a.2.1)).sum = baseHeight * count + min r count := by
  intro count
  induction count with
  | zero => intro i r ob; simp [allocLoop]
  | succ n ih =>
    intro i r ob
    simp only [allocLoop, List.map_cons, List.sum_cons, ih, Nat.mul_succ]
    by_cases hr : 0 < r <;> simp [hr] <;> omega

/-- C6: for every height `H ≥ 1` and non-empty line list, the compositor
partitions `H` into `N = lines.length` bands whose heights sum to `H`,
where the first `H % N` bands (that is, `H - floor(H/N)*N` of them) have
height `floor(H/N) + 1` and the rest have height `floor(H/N)`; in
particular H=32, N=2 gives heights 16 and 16, and H=33, N=2 gives 17 and
16. -/
theorem bands_even_partition (lines : List String) (H : Nat)
    (hH : 1 ≤ H) (hlines : lines ≠ []) :
    ((allocTriples lines H).map (fun a => a.2.1)).length = lines.length ∧
    ((allocTriples lines H).map (fun a => a.2.1)).sum = H ∧
    (∀ j, j < lines.length →
      ((allocTriples lines H).getD j (" ", 0, 0)).2.1 =
        if j < H % lines.length then H / lines.length + 1
        else H / lines.length) ∧
    ((allocTriples ["A", "B"] 32).map (fun a => a.2.1)).map id = [16, 16] ∧
    ((allocTriples ["A", "B"] 33).map (fun a => a.2.1)).map id = [17, 16] := by
  have hN : 0 < lines.length := List.length_pos.mpr hlines
  have hmax : max 1 lines.length = lines.length := max_eq_right hN
  have hrem : H - H / lines.length * lines.length = H % lines.length := by
    rw [Nat.mul_comm]
    have := Nat.div_add_mod H lines.length
    omega
  refine ⟨?_, ?_, ?_, by decide, by decide⟩
  · simp [allocTriples, hmax, allocLoop_length]
  · rw [allocTriples]
    simp only [hmax, hrem]
    rw [allocLoop_height_sum]
    have hlt : H % lines.length < lines.length := Nat.mod_lt H hN
    have hcomm : H / lines.length * lines.length =
        lines.length * (H / lines.length) := Nat.mul_comm _ _
    have := Nat.div_add_mod H lines.length
    omega
  · intro j hj
    rw [allocTriples]
    simp only [hmax, hrem]
    exact allocLoop_height_getD lines H (H / lines.length) lines.length 0
      (H % lines.length) 0 j hj

theorem bands_even_partition_witness :
    ((allocTriples ["A", "B"] 33).map (fun a => a.2.1)).length =
      (["A", "B"] : List String).length ∧
    ((allocTriples ["A", "B"] 33).map (fun a => a.2.1)).sum = 33 ∧
    (∀ j, j < (["A", "B"] : List String).length →
      ((allocTriples ["A", "B"] 33).getD j (" ", 0, 0)).2.1 =
        if j < 33 % (["A", "B"] : List String).length then
          33 / (["A", "B"] : List String).length + 1
        else 33 / (["A", "B"] : List String).length) ∧
    ((allocTriples ["A", "B"] 32).map (fun a => a.2.1)).map id = [16, 16] ∧
    ((allocTriples ["A", "B"] 33).map (fun a => a.2.1)).map id = [17, 16] :=
  bands_even_partition ["A", "B"] 33 (by decide) (by decide)

/-- C5: the reel built from the single line "AAPL 189.87" at height 32
(one band) has exactly 11 * (5+1) + 5 = 71 columns, every column has 32
rows, and every set pixel lies in the vertically centered 7-row band, rows
(32-7)/2 = 12 through 18. -/
theorem reel_AAPL_dimensions :
    (buildColumns ["AAPL 189.87"] 32).length = 11 * (5 + 1) + 5 ∧
    (∀ col ∈ buildColumns ["AAPL 189.87"] 32, col.length = 32) ∧
    (∀ col ∈ buildColumns ["AAPL 189.87"] 32, ∀ y, y < 32 →
      col.getD y false = true → (32 - 7) / 2 ≤ y ∧ y ≤ (32 - 7) / 2 + 6) := by
  decide

theorem reel_AAPL_dimensions_witness :
    (32 - 7) / 2 ≤ 13 ∧ 13 ≤ (32 - 7) / 2 + 6 :=
  reel_AAPL_dimensions.2.2 ((buildColumns ["AAPL 189.87"] 32).getD 0 [])
    (by decide) 13 (by decide) (by decide)

/-! ### Lemmas for the all-blank reel -/

theorem blankRow_getD (x : Nat) :
    ([' ', ' ', ' ', ' ', ' '] : List Char)[x]?.getD ' ' = ' ' := by
  match x with
  | 0 => rfl
  | 1 => rfl
  | 2 => rfl
  | 3 => rfl
  | 4 => rfl
  | n + 5 => rfl

theorem pixelAt_space (y x : Nat) : pixelAt (fontRows ' ') y x = false := by
  have hf : fontRows ' ' =
      ["     ", "     ", "     ", "     ", "     ", "     ", "     "] := rfl
  unfold pixelAt
  rw [hf]
  match y with
  | 0 => simp [blankRow_getD]
  | 1 => simp [blankRow_getD]
  | 2 => simp [blankRow_getD]
  | 3 => simp [blankRow_getD]
  | 4 => simp [blankRow_getD]
  | 5 => simp [blankRow_getD]
  | 6 => simp [blankRow_getD]
  | n + 7 =>
    have h : (["     ", "     ", "     ", "     ", "     ", "     ",
        "     "] : List String).getD (n + 7) "" = "" :=
      List.getD_eq_default _ _ (by simp)
    simp [h]

theorem charColumns_space (baseRow height : Nat) :
    charColumns ' ' baseRow height =
      List.replicate (glyphWidth + 1) (blankColumn height) := by
  unfold charColumns
  have hmapped : (List.range glyphWidth).map (fun x =>
      (List.range height).map fun r =>
        decide (baseRow ≤ r) && decide (r < baseRow + glyphHeight) &&
          pixelAt (fontRows ' ') (r - baseRow) x) =
      List.replicate glyphWidth (blankColumn height) := by
    refine List.eq_replicate.mpr ⟨by simp, ?_⟩
    intro b hb
    simp only [List.mem_map] at hb
    obtain ⟨x, _, rfl⟩ := hb
    unfold blankColumn
    refine List.eq_replicate.mpr ⟨by simp, ?_⟩
    intro c hc
    simp only [List.mem_map] at hc
    obtain ⟨r, _, rfl⟩ := hc
    simp [pixelAt_space]
  rw [hmapped, ← List.replicate_succ']

theorem lineColumns_blank (m : String) (hm : m = "" ∨ m = " ")
    (baseRow height : Nat) :
    lineColumns m baseRow height = List.replicate 11 (blankColumn height) := by
  have htext : (if m.length ≠ 0 then jsToUpper m else " ") = " " := by
    rcases hm with rfl | rfl <;> decide
  unfold lineColumns
  rw [htext]
  have htl : (" " : String).toList = [' '] := rfl
  simp only [htl, List.flatMap_cons, List.flatMap_nil, List.append_nil]
  rw [charColumns_space, ← List.replicate_add]
  rfl

theorem allocLoop_fst_blank (lines : List String)
    (hlines : ∀ l ∈ lines, l = "") (height baseHeight : Nat) :
    ∀ (count i r ob : Nat),
      ∀ a ∈ allocLoop lines height baseHeight count i r ob,
        a.1 = "" ∨ a.1 = " " := by
  intro count
  induction count with
  | zero => intro i r ob a ha; simp [allocLoop] at ha
  | succ n ih =>
    intro i r ob a ha
    simp only [allocLoop, List.mem_cons] at ha
    rcases ha with rfl | ha
    · by_cases hi : i < lines.length
      · left
        rw [List.getD_eq_get _ _ hi]
        exact hlines _ (List.get_mem lines i hi)
      · right
        rw [List.getD_eq_default _ _ (by omega)]
    · exact ih _ _ _ a ha

theorem getD_replicate_self {α : Type} (a : α) :
    ∀ (n i : Nat), (List.replicate n a).getD i a = a := by
  intro n
  induction n with
  | zero => intro i; simp
  | succ k ih =>
    intro i
    cases i with
    | zero => rfl
    | succ j => simpa [List.replicate_succ] using ih j

theorem getD_replicate_of_lt {α : Type} (a d : α) :
    ∀ (n i : Nat), i < n → (List.replicate n a).getD i d = a := by
  intro n
  induction n with
  | zero => intro i h; exact absurd h (by omega)
  | succ k ih =>
    intro i h
    cases i with
    | zero => rfl
    | succ j => simpa [List.replicate_succ] using ih j (by omega)

theorem foldl_max_eleven_aux :
    ∀ (k : Nat), (List.replicate k (11 : Nat)).foldl max 11 = 11 := by
  intro k
  induction k with
  | zero => rfl
  | succ j ih =>
    rw [List.replicate_succ, List.foldl_cons]
    simpa using ih

theorem foldl_max_one_replicate (K : Nat) (hK : 1 ≤ K) :
    (List.replicate K (11 : Nat)).foldl max 1 = 11 := by
  match K, hK with
  | k + 1, _ =>
    rw [List.replicate_succ, List.foldl_cons]
    have h : max 1 11 = 11 := rfl
    rw [h]
    exact foldl_max_eleven_aux k

/-- C3 counterexample: the reel built from the single empty line at the
default height 32 has 11 columns (the empty line is replaced by one space
glyph: 5 glyph columns, 1 spacing column, 5 trailing columns), not exactly
one column. -/
theorem buildColumns_empty_line_not_single :
    (buildColumns [""] 32).length = 11 ∧ (buildColumns [""] 32).length ≠ 1 := by
  decide

/-- C3 amended: when every input line is the empty string (including the
single-empty-line case and the no-line case), every column of the reel is
blank, but the reel has exactly 11 all-blank columns rather than one; and
for every input whatsoever the reel length is at least 1. -/
theorem buildColumns_empty_lines_spec (lines : List String) (height : Nat)
    (hlines : ∀ l ∈ lines, l = "") :
    buildColumns lines height = List.replicate 11 (blankColumn height) ∧
    ∀ (ls : List String) (h : Nat), 1 ≤ (buildColumns ls h).length := by
  constructor
  · have hper : (allocTriples lines height).map
        (fun a => lineColumns a.1 a.2.2 height) =
        List.replicate (max 1 lines.length)
          (List.replicate 11 (blankColumn height)) := by
      refine List.eq_replicate.mpr ⟨?_, ?_⟩
      · simp [allocTriples, allocLoop_length]
      · intro b hb
        simp only [List.mem_map] at hb
        obtain ⟨a, ha, rfl⟩ := hb
        simp only [allocTriples] at ha
        exact lineColumns_blank a.1
          (allocLoop_fst_blank lines hlines _ _ _ _ _ _ a ha) a.2.2 height
    simp only [buildColumns]
    rw [hper]
    have hmc : ((List.replicate (max 1 lines.length)
        (List.replicate 11 (blankColumn height))).map List.length).foldl
          max 1 = 11 := by
      rw [List.map_replicate]
      simp only [List.length_replicate]
      exact foldl_max_one_replicate _ (le_max_left 1 lines.length)
    rw [hmc]
    have houtput : (List.range 11).map (fun idx =>
        (List.range height).map fun y =>
          (List.replicate (max 1 lines.length)
            (List.replicate 11 (blankColumn height))).any fun lc =>
              (lc.getD idx []).getD y false) =
        List.replicate 11 (blankColumn height) := by
      refine List.eq_replicate.mpr ⟨by simp, ?_⟩
      intro b hb
      simp only [List.mem_map, List.mem_range] at hb
      obtain ⟨idx, hidx, rfl⟩ := hb
      unfold blankColumn
      refine List.eq_replicate.mpr ⟨by simp, ?_⟩
      intro c hc
      simp only [List.mem_map] at hc
      obtain ⟨y, _, rfl⟩ := hc
      rw [List.any_eq_false]
      intro lc hlc
      rw [List.eq_of_mem_replicate hlc,
        getD_replicate_of_lt _ _ _ _ hidx]
      rw [getD_replicate_self]
      simp
    rw [houtput]
    simp
  · intro ls h
    simp only [buildColumns]
    split
    · simp
    · rename_i hout
      exact List.length_pos.mpr (by simpa [List.isEmpty_iff] using hout)

theorem buildColumns_empty_lines_spec_witness :
    buildColumns [""] 32 = List.replicate 11 (blankColumn 32) ∧
    1 ≤ (buildColumns ["X"] 7).length :=
  ⟨(buildColumns_empty_lines_spec [""] 32 (by decide)).1,
   (buildColumns_empty_lines_spec [""] 32 (by decide)).2 ["X"] 7⟩

end StockTicker
